import Mathlib

/-!
Verification of the NeuroGrip maze game's real-time session engine:
the per-frame control-signal resolution, collision resolution, metrics
accumulation, derived-statistics pipeline, and session state machine,
shallowly embedded from `game.py` and `settings.py`.  Python floats are
modelled as exact rationals; square roots (pygame `Vector2.distance_to`,
`statistics.stdev`) are modelled with `Real.sqrt`.
-/

namespace NeuroGrip

/-! ### Constants from settings.py -/

/-- settings.py: `TILE_SIZE = 40`. -/
def TILE_SIZE : ℤ := 40

/-- settings.py: `PLAYER_SPEED = 260`. -/
def PLAYER_SPEED : ℚ := 260

/-- settings.py: `PLAYER_ACCELERATION = 0.1` (the lerp factor). -/
def PLAYER_ACCELERATION : ℚ := 1/10

/-- settings.py: `PLAYER_BOUNCINESS = 0.4`. -/
def PLAYER_BOUNCINESS : ℚ := 2/5

/-- settings.py: `TILT_SENSITIVITY = 5000.0`. -/
def TILT_SENSITIVITY : ℚ := 5000

/-- settings.py: `FSR_THRESHOLD = 500` (grip gate). -/
def FSR_THRESHOLD : ℚ := 500

/-- settings.py: `MAX_FSR_VALUE = 4095.0` (ADC maximum, also the
`Min_FSR_Move` sentinel in game.py line 268). -/
def MAX_FSR_VALUE : ℚ := 4095

/-- game.py lines 18-19: `clamp(v, lo, hi) = max(lo, min(hi, v))`. -/
def clamp (v lo hi : ℚ) : ℚ := max lo (min hi v)

/-! ### Control Signal Resolver (game.py lines 276-295) -/

/-- One frame's raw input: either a fresh hardware sample (integer FSR and
accelerometer values parsed from the serial line, game.py lines 71-72), or
the keyboard state together with the value that `random.uniform` returned
for this frame (game.py line 290). -/
inductive FrameInput where
  | hardware (fsr ax ay : ℤ)
  | keyboard (left right up down : Bool) (sim : ℚ)

/-- Python bool-to-int coercion used in `(keys[K_RIGHT] - keys[K_LEFT])`. -/
def boolToQ (b : Bool) : ℚ := if b then 1 else 0

/-- The target velocity resolved from one frame's input, game.py lines
276-288: on the hardware path the clamped tilt times `PLAYER_SPEED` when
the force reading strictly exceeds the threshold, else zero; on the
keyboard path the key differences times `PLAYER_SPEED`. -/
def resolveTarget (inp : FrameInput) : ℚ × ℚ :=
  match inp with
  | .hardware fsr ax ay =>
      if (fsr : ℚ) > FSR_THRESHOLD then
        (clamp ((ax : ℚ) / TILT_SENSITIVITY) (-1) 1 * PLAYER_SPEED,
         clamp ((ay : ℚ) / TILT_SENSITIVITY) (-1) 1 * PLAYER_SPEED)
      else (0, 0)
  | .keyboard l r u d _ =>
      ((boolToQ r - boolToQ l) * PLAYER_SPEED,
       (boolToQ d - boolToQ u) * PLAYER_SPEED)

/-- The force-sample accumulator slice of `current_level_metrics`
(game.py line 268): running extrema plus the append-only sample list. -/
structure FSRMetrics where
  maxFSR : ℚ
  minFSRMove : ℚ
  readings : List ℚ
  deriving DecidableEq, Repr

/-- Initial accumulator, game.py line 268: `"Max_FSR": 0`,
`"Min_FSR_Move": MAX_FSR_VALUE`, `"FSR_Readings_Move": []`. -/
def initFSR : FSRMetrics :=
  { maxFSR := 0, minFSRMove := MAX_FSR_VALUE, readings := [] }

/-- Recording one force sample, game.py lines 282-284 / 292-294: append to
the list and update both running extrema. -/
def recordSample (m : FSRMetrics) (f : ℚ) : FSRMetrics :=
  { maxFSR := max m.maxFSR f
    minFSRMove := min m.minFSRMove f
    readings := m.readings ++ [f] }

/-- One frame of the control-signal resolver with its metric side effects,
game.py lines 276-295.  Returns the target velocity, the value of
`self.current_fsr` after the frame, and the updated accumulator.  A sample
is recorded exactly when the resolved target velocity has nonzero length;
on the keyboard path the force is set to zero otherwise. -/
def controlStep (inp : FrameInput) (m : FSRMetrics) : (ℚ × ℚ) × ℚ × FSRMetrics :=
  match inp with
  | .hardware fsr ax ay =>
      let tv := resolveTarget (.hardware fsr ax ay)
      if tv ≠ (0, 0) then (tv, (fsr : ℚ), recordSample m (fsr : ℚ))
      else (tv, (fsr : ℚ), m)
  | .keyboard l r u d sim =>
      let tv := resolveTarget (.keyboard l r u d sim)
      if tv ≠ (0, 0) then (tv, sim, recordSample m sim)
      else (tv, 0, m)

/-- The control/metrics loop folded over a list of frame inputs, the
accumulator slice of the `while level_running` loop of game.py. -/
def runControl (inputs : List FrameInput) : FSRMetrics :=
  inputs.foldl (fun m i => (controlStep i m).2.2) initFSR

/-- An input trace respecting the hardware-free contract of
`random.uniform(FSR_THRESHOLD + 200, MAX_FSR_VALUE - 500)` (game.py line
290): every keyboard frame's synthetic draw lies in the in-range band. -/
def validTrace (inputs : List FrameInput) : Prop :=
  ∀ i ∈ inputs, match i with
    | FrameInput.hardware _ _ _ => True
    | FrameInput.keyboard _ _ _ _ sim =>
        FSR_THRESHOLD + 200 ≤ sim ∧ sim ≤ MAX_FSR_VALUE - 500

/-! ### Collision Resolver (game.py lines 301-309) -/

/-- A pygame `Rect`: integer top-left corner plus size.  Assigning a float
to a `Rect` coordinate truncates it toward zero, modelled by `truncQ`. -/
structure Rect where
  x : ℤ
  y : ℤ
  w : ℤ
  h : ℤ
  deriving DecidableEq, Repr

/-- Truncation toward zero applied by pygame when a float is stored into an
integer `Rect` coordinate (`Int` division truncates toward zero, and a
rational is stored in lowest terms with a positive denominator). -/
def truncQ (q : ℚ) : ℤ := q.num / (q.den : ℤ)

/-- pygame `Rect.colliderect`: strict overlap on both axes (touching edges
do not collide). -/
def collideRect (a b : Rect) : Bool :=
  a.x < b.x + b.w && a.x + a.w > b.x && a.y < b.y + b.h && a.y + a.h > b.y

/-- `pygame.sprite.spritecollide(player, barriers, False)` is nonempty:
the player's rect overlaps at least one barrier rect. -/
def collideAny (r : Rect) (obstacles : List Rect) : Bool :=
  obstacles.any (fun o => collideRect r o)

/-- `player.rect.x += vx * dt` (game.py line 303): float addition followed
by pygame's truncating store. -/
def moveX (r : Rect) (dx : ℚ) : Rect :=
  { r with x := truncQ ((r.x : ℚ) + dx) }

/-- `player.rect.y += vy * dt` (game.py line 307). -/
def moveY (r : Rect) (dy : ℚ) : Rect :=
  { r with y := truncQ ((r.y : ℚ) + dy) }

/-- Axis-separated collision resolution for one frame, game.py lines
301-309, x first then y: apply the x displacement, test overlap against
every barrier, and on overlap revert `x`, scale the x velocity by
`-PLAYER_BOUNCINESS`, and add one collision; then do the same
independently for y.  Returns the corrected rect, the corrected velocity
and the number of collision events added to `Collision_Count`. -/
def collisionStep (r : Rect) (v : ℚ × ℚ) (dt : ℚ) (obstacles : List Rect) :
    Rect × (ℚ × ℚ) × ℕ :=
  let rx := moveX r (v.1 * dt)
  let hitX := collideAny rx obstacles
  let r1 := if hitX then { rx with x := r.x } else rx
  let vx := if hitX then v.1 * -PLAYER_BOUNCINESS else v.1
  let ry := moveY r1 (v.2 * dt)
  let hitY := collideAny ry obstacles
  let r2 := if hitY then { ry with y := r.y } else ry
  let vy := if hitY then v.2 * -PLAYER_BOUNCINESS else v.2
  (r2, (vx, vy), (if hitX then 1 else 0) + (if hitY then 1 else 0))

/-! ### Derived Statistics Pipeline (game.py lines 410-443) -/

/-- Python `statistics.mean`.  It raises `StatisticsError` on an empty
list; every call site in game.py is guarded by non-emptiness, so the
total-function value on `[]` is never consulted. -/
def mean (l : List ℚ) : ℚ := l.sum / l.length

/-- Python `statistics.stdev`: the sample standard deviation with an
`n - 1` denominator.  It raises for fewer than two samples; its only call
sites sit under a `len > 1` guard. -/
noncomputable def stdev (l : List ℚ) : ℝ :=
  Real.sqrt ((l.map (fun x : ℚ => ((x : ℝ) - ((mean l : ℚ) : ℝ)) ^ 2)).sum /
    ((l.length : ℝ) - 1))

/-- Per-level coefficient of variation of the force samples, game.py lines
421-425: `cov = 0; if len > 1: cov = (stdev/mean)*100 if mean > 0 else 0`. -/
noncomputable def levelCov (samples : List ℚ) : ℝ :=
  if 1 < samples.length then
    if 0 < mean samples then (stdev samples / ((mean samples : ℚ) : ℝ)) * 100
    else 0
  else 0

/-- pygame `Vector2.distance_to`: Euclidean distance between two points. -/
noncomputable def dist2 (p q : ℚ × ℚ) : ℝ :=
  Real.sqrt (((p.1 - q.1) ^ 2 + (p.2 - q.2) ^ 2 : ℚ) : ℝ)

/-- game.py line 428: the travelled path length, the sum of distances over
consecutive pairs `zip(path_points[:-1], path_points[1:])`. -/
noncomputable def pathLength (pts : List (ℚ × ℚ)) : ℝ :=
  ((pts.zip pts.tail).map (fun pq => dist2 pq.1 pq.2)).sum

/-- game.py line 430:
`path_eff = (shortest_path / path_len) * 100 if path_len > 0 else 0`. -/
noncomputable def pathEfficiency (shortest : ℝ) (pts : List (ℚ × ℚ)) : ℝ :=
  if 0 < pathLength pts then (shortest / pathLength pts) * 100 else 0

/-- game.py lines 265-266: the heuristic shortest path computed once at
level start — straight-line start-to-goal distance times 1.5. -/
noncomputable def shortestPathLength (start goal : ℚ × ℚ) : ℝ :=
  dist2 start goal * 1.5

/-- A completed level's metrics record as consumed by `_generate_report`
(the fields of `current_level_metrics`, game.py line 268, that the
derived-statistics pipeline reads). -/
structure LevelMetricsR where
  levelName : String
  duration : ℚ
  collisionCount : ℕ
  fsrReadings : List ℚ
  pathPoints : List (ℚ × ℚ)
  shortestPathLen : ℝ

/-- game.py line 268: the fresh metrics record built at level start, with
the path seeded with the start position and the precomputed heuristic
shortest-path length. -/
noncomputable def initLevelMetrics (name : String) (start goal : ℚ × ℚ) :
    LevelMetricsR :=
  { levelName := name, duration := 0, collisionCount := 0, fsrReadings := [],
    pathPoints := [start], shortestPathLen := shortestPathLength start goal }

/-- One row of `level_specific_data`, game.py lines 432-438. -/
structure LevelData where
  name : String
  duration : ℚ
  collisions : ℕ
  cov : ℝ
  pathEff : ℝ

/-- game.py lines 419-438: the per-level derived values. -/
noncomputable def levelData (m : LevelMetricsR) : LevelData :=
  { name := m.levelName, duration := m.duration, collisions := m.collisionCount,
    cov := levelCov m.fsrReadings,
    pathEff := pathEfficiency m.shortestPathLen m.pathPoints }

/-- `statistics.mean` over the already-derived real values (game.py lines
441-443); again only ever applied to nonempty lists in the source. -/
noncomputable def meanR (l : List ℝ) : ℝ := l.sum / l.length

/-- The data path of `_generate_report`, game.py lines 410-443: with no
completed levels it prints a notice and returns before any aggregate is
computed (modelled as `none`); otherwise it produces the per-level rows
and the three session averages in source order (cov, collisions, path
efficiency). -/
noncomputable def processSession (ms : List LevelMetricsR) :
    Option (List LevelData × ℝ × ℝ × ℝ) :=
  match ms with
  | [] => none
  | m :: rest =>
      let lds := (m :: rest).map levelData
      some (lds, meanR (lds.map LevelData.cov),
            meanR (lds.map (fun d => (d.collisions : ℝ))),
            meanR (lds.map LevelData.pathEff))

/-! ### Level completion test (game.py line 313) -/

/-- game.py line 313: the frame completes the level exactly when the
distance from the ball's center to the hole's center is strictly below
the capture radius of 15. -/
def levelComplete (ballCenter holeCenter : ℚ × ℚ) : Prop :=
  dist2 ballCenter holeCenter < 15

/-! ### Session state machine (game.py lines 79-96, 189, 216-236, 313-319) -/

/-- The values of `self.game_state` dispatched in `run()`. -/
inductive GameState where
  | userTypeSelection
  | userInfoEntry
  | mainMenu
  | settings
  | playing
  | askContinue
  | generateReport
  deriving DecidableEq, Repr

/-- game.py line 33: `self.level_sequence = ["Easy", "Medium", "Hard"]`. -/
def levelSequence : List String := ["Easy", "Medium", "Hard"]

/-- The session-level mutable state threaded through the menu and level
loops. -/
structure Session where
  gameState : GameState
  currentLevelIndex : ℕ
  completedLevels : List LevelMetricsR

/-- game.py line 189: the "Start Game" action resets the level index to 0,
clears the completed-levels list and enters the playing state. -/
def startGame (s : Session) : Session :=
  { s with gameState := .playing, currentLevelIndex := 0, completedLevels := [] }

/-- game.py lines 313-319: on level completion the finished metrics are
appended, the index advances by one, and the state moves to report
generation when the index reaches the end of the sequence, else to the
ask-to-continue screen. -/
def completeLevel (s : Session) (m : LevelMetricsR) : Session :=
  let idx := s.currentLevelIndex + 1
  { s with
    gameState :=
      if levelSequence.length ≤ idx then .generateReport else .askContinue
    currentLevelIndex := idx
    completedLevels := s.completedLevels ++ [m] }

/-! ### Population Baseline Tracker (game.py lines 578-633, 509-545) -/

/-- The parsed content of `normal_user_thresholds.txt`: one entry per
line, a key and its comma-separated float values.  `none` models an
absent file. -/
abbrev ThresholdFile := List (String × List ℚ)

/-- game.py lines 617-633, `_load_normal_thresholds`: an absent file
yields `None`; otherwise each parsed line becomes the arithmetic mean of
its values (the emptiness fallback of line 629 included).  A line whose
value field fails float parsing makes the whole load return `None` in the
source; such a line is not representable here because entries arrive
already parsed. -/
def loadNormalThresholds (file : Option ThresholdFile) :
    Option (List (String × ℚ)) :=
  match file with
  | none => none
  | some lines =>
      some (lines.map (fun kv => (kv.1, if kv.2 = [] then 0 else mean kv.2)))

/-- Python dict lookup over lines inserted in order (a later duplicate key
overwrites an earlier one). -/
def dictLookup (t : List (String × ℚ)) (k : String) : Option ℚ :=
  (t.reverse.find? (fun kv => kv.1 = k)).map Prod.snd

/-- game.py lines 509-545: the rehabilitation report's comparison table.
It is emitted only when `_load_normal_thresholds` returns a truthy value
(`None` and the empty dict are both falsy), and each row holds the
session value, the persisted baseline mean and their difference, in
source row order (collisions, cov, path efficiency).  A store that lacks
one of the three keys makes the source crash on dict access; modelled as
no table. -/
def comparisonSection (file : Option ThresholdFile)
    (avgCov avgCollisions avgPathEff : ℚ) :
    Option (List (String × ℚ × ℚ × ℚ)) :=
  match loadNormalThresholds file with
  | none => none
  | some t =>
      if t = [] then none
      else
        match dictLookup t "avg_collisions", dictLookup t "avg_cov",
            dictLookup t "avg_path_eff" with
        | some bc, some bv, some bp =>
            some [("Collisions", avgCollisions, bc, avgCollisions - bc),
                  ("Grip CoV (%)", avgCov, bv, avgCov - bv),
                  ("Path Eff (%)", avgPathEff, bp, avgPathEff - bp)]
        | _, _, _ => none

/-! ### List extrema helpers (for stating the force-extrema invariant) -/

/-- The maximum of a list of rationals (0 on the empty list). -/
def qmax : List ℚ → ℚ
  | [] => 0
  | x :: xs => xs.foldl max x

/-- The minimum of a list of rationals (0 on the empty list). -/
def qmin : List ℚ → ℚ
  | [] => 0
  | x :: xs => xs.foldl min x

/-! ### Helper lemmas -/

/-- Truncation of an integer-valued rational is that integer. -/
theorem truncQ_intCast (n : ℤ) : truncQ ((n : ℚ)) = n := by
  simp [truncQ]

/-- An x move by an integer displacement adds it to the x coordinate. -/
theorem moveX_int (x y w h d : ℤ) :
    moveX ⟨x, y, w, h⟩ ((d : ℤ) : ℚ) = ⟨x + d, y, w, h⟩ := by
  simp only [moveX, ← Int.cast_add, truncQ_intCast]

/-- A y move by an integer displacement adds it to the y coordinate. -/
theorem moveY_int (x y w h d : ℤ) :
    moveY ⟨x, y, w, h⟩ ((d : ℤ) : ℚ) = ⟨x, y + d, w, h⟩ := by
  simp only [moveY, ← Int.cast_add, truncQ_intCast]

/-- The mean of a constant list is that constant. -/
theorem mean_replicate (n : ℕ) (c : ℚ) (hn : n ≠ 0) :
    mean (List.replicate n c) = c := by
  have h : (n : ℚ) ≠ 0 := by exact_mod_cast hn
  simp only [mean, List.sum_replicate, List.length_replicate, nsmul_eq_mul]
  field_simp

/-- The sample standard deviation of a constant list vanishes. -/
theorem stdev_replicate (n : ℕ) (c : ℚ) (hn : n ≠ 0) :
    stdev (List.replicate n c) = 0 := by
  have hmap : (List.replicate n c).map
      (fun x : ℚ => ((x : ℝ) - ((mean (List.replicate n c) : ℚ) : ℝ)) ^ 2) =
      List.replicate n 0 := by
    rw [mean_replicate n c hn, List.map_replicate]
    simp
  rw [stdev, hmap]
  simp

/-- Folding `max` commutes with an extra seed element. -/
theorem foldl_max_shift (xs : List ℚ) (a x : ℚ) :
    xs.foldl max (max a x) = max a (xs.foldl max x) := by
  induction xs generalizing x with
  | nil => rfl
  | cons y ys ih =>
      simp only [List.foldl_cons]
      rw [max_assoc, ih (max x y)]

/-- Folding `min` commutes with an extra seed element. -/
theorem foldl_min_shift (xs : List ℚ) (a x : ℚ) :
    xs.foldl min (min a x) = min a (xs.foldl min x) := by
  induction xs generalizing x with
  | nil => rfl
  | cons y ys ih =>
      simp only [List.foldl_cons]
      rw [min_assoc, ih (min x y)]

/-- A strict lower bound of the seed and all elements bounds a `max` fold. -/
theorem lt_foldl_max (xs : List ℚ) (c x : ℚ) (hx : c < x)
    (hxs : ∀ f ∈ xs, c < f) : c < xs.foldl max x := by
  induction xs generalizing x with
  | nil => exact hx
  | cons y ys ih =>
      simp only [List.foldl_cons]
      exact ih (max x y) (lt_of_lt_of_le hx (le_max_left x y))
        (fun f hf => hxs f (List.mem_cons_of_mem _ hf))

/-- A strict lower bound of the seed and all elements bounds a `min` fold. -/
theorem lt_foldl_min (xs : List ℚ) (c x : ℚ) (hx : c < x)
    (hxs : ∀ f ∈ xs, c < f) : c < xs.foldl min x := by
  induction xs generalizing x with
  | nil => exact hx
  | cons y ys ih =>
      simp only [List.foldl_cons]
      exact ih (min x y) (lt_min hx (hxs y (List.mem_cons_self y ys)))
        (fun f hf => hxs f (List.mem_cons_of_mem _ hf))

/-- One control frame preserves the running-extrema representation of the
force accumulator: `Max_FSR` is the `max` fold of the readings seeded
with 0, `Min_FSR_Move` the `min` fold seeded with the sentinel, and every
reading strictly exceeds the grip threshold. -/
theorem controlStep_invariant (inp : FrameInput) (m : FSRMetrics)
    (hinp : match inp with
      | FrameInput.hardware _ _ _ => True
      | FrameInput.keyboard _ _ _ _ sim =>
          FSR_THRESHOLD + 200 ≤ sim ∧ sim ≤ MAX_FSR_VALUE - 500)
    (h1 : m.maxFSR = m.readings.foldl max 0)
    (h2 : m.minFSRMove = m.readings.foldl min MAX_FSR_VALUE)
    (h3 : ∀ f ∈ m.readings, FSR_THRESHOLD < f) :
    (controlStep inp m).2.2.maxFSR =
      (controlStep inp m).2.2.readings.foldl max 0 ∧
    (controlStep inp m).2.2.minFSRMove =
      (controlStep inp m).2.2.readings.foldl min MAX_FSR_VALUE ∧
    (∀ f ∈ (controlStep inp m).2.2.readings, FSR_THRESHOLD < f) := by
  cases inp with
  | hardware fsr ax ay =>
      simp only [controlStep]
      by_cases htv : resolveTarget (.hardware fsr ax ay) = (0, 0)
      · rw [if_neg (not_not_intro htv)]
        exact ⟨h1, h2, h3⟩
      · rw [if_pos htv]
        have hfsr : FSR_THRESHOLD < (fsr : ℚ) := by
          by_contra hle
          exact htv (by simp [resolveTarget, hle])
        refine ⟨?_, ?_, ?_⟩
        · simp [recordSample, List.foldl_append, h1]
        · simp [recordSample, List.foldl_append, h2]
        · intro f hf
          simp only [recordSample, List.mem_append, List.mem_singleton] at hf
          rcases hf with hf | hf
          · exact h3 f hf
          · rw [hf]; exact hfsr
  | keyboard l r u d sim =>
      simp only [controlStep]
      by_cases htv : resolveTarget (.keyboard l r u d sim) = (0, 0)
      · rw [if_neg (not_not_intro htv)]
        exact ⟨h1, h2, h3⟩
      · rw [if_pos htv]
        have hsim : FSR_THRESHOLD < sim := by
          have hb := hinp.1
          norm_num [FSR_THRESHOLD] at hb ⊢
          linarith
        refine ⟨?_, ?_, ?_⟩
        · simp [recordSample, List.foldl_append, h1]
        · simp [recordSample, List.foldl_append, h2]
        · intro f hf
          simp only [recordSample, List.mem_append, List.mem_singleton] at hf
          rcases hf with hf | hf
          · exact h3 f hf
          · rw [hf]; exact hsim

/-! ### Theorems for claim C1 -/

/-- C1: Grip-gating on the hardware path.  For every frame with a hardware
sample, if the force reading is at most `FSR_THRESHOLD` the resolved
target velocity is the zero vector regardless of tilt; if it strictly
exceeds the threshold, the target velocity is the tilt divided by the
sensitivity, clamped to `[-1, 1]`, times `PLAYER_SPEED` on each axis. -/
theorem grip_gating_hardware (fsr ax ay : ℤ) :
    ((fsr : ℚ) ≤ FSR_THRESHOLD →
      resolveTarget (.hardware fsr ax ay) = (0, 0)) ∧
    (FSR_THRESHOLD < (fsr : ℚ) →
      resolveTarget (.hardware fsr ax ay) =
        (clamp ((ax : ℚ) / TILT_SENSITIVITY) (-1) 1 * PLAYER_SPEED,
         clamp ((ay : ℚ) / TILT_SENSITIVITY) (-1) 1 * PLAYER_SPEED)) := by
  constructor
  · intro h
    simp [resolveTarget, not_lt.mpr h]
  · intro h
    simp [resolveTarget, h]

/-- C1 witness: at force 500 (equal to the threshold) with a large tilt the
target velocity is zero, and at force 501 with tilt 5000 on x it is
`(260, 0)`. -/
theorem grip_gating_hardware_witness :
    resolveTarget (.hardware 500 9999 9999) = (0, 0) ∧
    resolveTarget (.hardware 501 5000 0) = (260, 0) := by
  constructor
  · exact (grip_gating_hardware 500 9999 9999).1 (by norm_num [FSR_THRESHOLD])
  · have h := (grip_gating_hardware 501 5000 0).2 (by norm_num [FSR_THRESHOLD])
    rw [h]
    norm_num [clamp, TILT_SENSITIVITY, PLAYER_SPEED]

/-! ### Theorems for claim C2 -/

/-- C2: Axis-separated collision resolution, x first then y.  If the
x-only proposed move and the y-only proposed move each overlap some
obstacle, then in that frame exactly 2 collision events are counted, the
final rect equals the pre-frame rect on both axes, and each velocity
component is negated and scaled by the bounciness coefficient — one count
per axis event no matter how many obstacles overlap. -/
theorem axis_separated_collision (r : Rect) (v : ℚ × ℚ) (dt : ℚ)
    (obstacles : List Rect)
    (hx : collideAny (moveX r (v.1 * dt)) obstacles = true)
    (hy : collideAny (moveY r (v.2 * dt)) obstacles = true) :
    collisionStep r v dt obstacles =
      (r, (v.1 * -PLAYER_BOUNCINESS, v.2 * -PLAYER_BOUNCINESS), 2) := by
  obtain ⟨x, y, w, h⟩ := r
  simp only [moveX, moveY] at hx hy
  simp only [collisionStep, moveX, moveY, hx, hy, if_true]

/-- C2 witness: a concrete diagonal frame into a corner made of two
barrier tiles, where both single-axis moves overlap: 2 events, position
reverted on both axes, both velocity components rebound at 0.4 strength. -/
theorem axis_separated_collision_witness :
    collideAny (moveX ⟨100, 100, 20, 20⟩ ((30 : ℚ) * 1)) [⟨120, 90, 40, 40⟩, ⟨90, 120, 40, 40⟩] = true ∧
    collideAny (moveY ⟨100, 100, 20, 20⟩ ((30 : ℚ) * 1)) [⟨120, 90, 40, 40⟩, ⟨90, 120, 40, 40⟩] = true ∧
    collisionStep ⟨100, 100, 20, 20⟩ (30, 30) 1 [⟨120, 90, 40, 40⟩, ⟨90, 120, 40, 40⟩] =
      (⟨100, 100, 20, 20⟩, (-12, -12), 2) := by
  have h30 : ((30 : ℚ) * 1) = ((30 : ℤ) : ℚ) := by norm_num
  have hmx : collideAny (moveX ⟨100, 100, 20, 20⟩ ((30 : ℚ) * 1))
      [⟨120, 90, 40, 40⟩, ⟨90, 120, 40, 40⟩] = true := by
    rw [h30, moveX_int]; decide
  have hmy : collideAny (moveY ⟨100, 100, 20, 20⟩ ((30 : ℚ) * 1))
      [⟨120, 90, 40, 40⟩, ⟨90, 120, 40, 40⟩] = true := by
    rw [h30, moveY_int]; decide
  refine ⟨hmx, hmy, ?_⟩
  have h := axis_separated_collision ⟨100, 100, 20, 20⟩ (30, 30) 1
    [⟨120, 90, 40, 40⟩, ⟨90, 120, 40, 40⟩] hmx hmy
  rw [h]
  norm_num [PLAYER_BOUNCINESS]

/-! ### Theorems for claim C3 -/

/-- C3: Coefficient-of-variation computation.  For every list of force
samples the cov equals `(stdev/mean) * 100` when the list has more than
one element and a positive mean, and 0 otherwise; in particular the cov
of the empty list, of any one-element list, and of any constant list is
0. -/
theorem cov_definition :
    (∀ samples : List ℚ, 1 < samples.length → 0 < mean samples →
        levelCov samples = (stdev samples / ((mean samples : ℚ) : ℝ)) * 100) ∧
    (∀ samples : List ℚ, samples.length ≤ 1 ∨ mean samples ≤ 0 →
        levelCov samples = 0) ∧
    levelCov [] = 0 ∧
    (∀ c : ℚ, levelCov [c] = 0) ∧
    (∀ (n : ℕ) (c : ℚ), levelCov (List.replicate n c) = 0) := by
  refine ⟨?_, ?_, ?_, ?_, ?_⟩
  · intro samples h1 h2
    simp [levelCov, h1, h2]
  · intro samples h
    rcases h with h | h
    · simp [levelCov, not_lt.mpr h]
    · simp [levelCov, not_lt.mpr h]
  · simp [levelCov]
  · intro c
    simp [levelCov]
  · intro n c
    by_cases h : 1 < n
    · have hn : n ≠ 0 := by omega
      have hstd : stdev (List.replicate n c) = 0 := stdev_replicate n c hn
      have hlen : 1 < (List.replicate n c).length := by simpa using h
      simp [levelCov, hlen, hstd]
    · have hlen : ¬ 1 < (List.replicate n c).length := by simpa using h
      simp only [levelCov, if_neg hlen]

/-- C3 witness: the two-sample list `[10, 20]` takes the reference
formula, and the constant list `[10, 10, 10]` has cov 0. -/
theorem cov_definition_witness :
    levelCov [10, 20] = (stdev [10, 20] / ((mean [10, 20] : ℚ) : ℝ)) * 100 ∧
    levelCov (List.replicate 3 10) = 0 :=
  ⟨cov_definition.1 [10, 20] (by norm_num)
    (by norm_num [mean, List.sum_cons, List.sum_nil]),
   cov_definition.2.2.2.2 3 10⟩

/-! ### Theorems for claim C4 -/

/-- C4: Path efficiency.  The travelled path length is the sum of
Euclidean distances over consecutive path points; the efficiency is
`(shortest / path_length) * 100` when the path length is positive and 0
otherwise (no division error); and the heuristic shortest-path length
stored at level start is the straight start-to-goal distance times 1.5.
The concrete straight path from (0,0) to (10,0) with shortest 15 scores
150. -/
theorem path_efficiency_definition :
    (∀ (sp : ℝ) (pts : List (ℚ × ℚ)), 0 < pathLength pts →
        pathEfficiency sp pts = (sp / pathLength pts) * 100) ∧
    (∀ (sp : ℝ) (pts : List (ℚ × ℚ)), ¬ 0 < pathLength pts →
        pathEfficiency sp pts = 0) ∧
    (∀ (name : String) (start goal : ℚ × ℚ),
        (initLevelMetrics name start goal).shortestPathLen =
          dist2 start goal * 1.5 ∧
        (initLevelMetrics name start goal).pathPoints = [start]) ∧
    pathLength [((0 : ℚ), (0 : ℚ)), (10, 0)] = 10 ∧
    pathEfficiency 15 [((0 : ℚ), (0 : ℚ)), (10, 0)] = 150 := by
  have hlen : pathLength [((0 : ℚ), (0 : ℚ)), (10, 0)] = 10 := by
    simp only [pathLength, List.tail_cons, List.zip_cons_cons, List.zip_nil_right,
      List.map_cons, List.map_nil, List.sum_cons, List.sum_nil, add_zero]
    rw [dist2]
    norm_num
    rw [show (100 : ℝ) = 10 ^ 2 by norm_num]
    exact Real.sqrt_sq (by norm_num)
  refine ⟨?_, ?_, ?_, hlen, ?_⟩
  · intro sp pts h
    simp [pathEfficiency, h]
  · intro sp pts h
    simp [pathEfficiency, h]
  · intro name start goal
    exact ⟨rfl, rfl⟩
  · rw [pathEfficiency, if_pos (by rw [hlen]; norm_num), hlen]
    norm_num

/-- C4 witness: the positive-length branch applied to the concrete
straight path, and the zero-length branch applied to a one-point path. -/
theorem path_efficiency_definition_witness :
    pathEfficiency 15 [((0 : ℚ), (0 : ℚ)), (10, 0)] =
      (15 / pathLength [((0 : ℚ), (0 : ℚ)), (10, 0)]) * 100 ∧
    pathEfficiency 15 [((5 : ℚ), (5 : ℚ))] = 0 := by
  constructor
  · exact path_efficiency_definition.1 15 _
      (by rw [path_efficiency_definition.2.2.2.1]; norm_num)
  · exact path_efficiency_definition.2.1 15 [((5 : ℚ), (5 : ℚ))]
      (by simp [pathLength])

/-! ### Theorems for claim C5 -/

/-- C5: Level completion boundary.  A frame completes the level iff the
squared center-to-center distance is strictly below `15 ^ 2 = 225`; a
center exactly 15 away (offset (9,12)) does not complete, one 14.999 away
does. -/
theorem level_completion_boundary :
    (∀ c g : ℚ × ℚ, levelComplete c g ↔
        (c.1 - g.1) ^ 2 + (c.2 - g.2) ^ 2 < 225) ∧
    ¬ levelComplete (9, 12) (0, 0) ∧
    levelComplete (14999/1000, 0) (0, 0) := by
  have key : ∀ c g : ℚ × ℚ, levelComplete c g ↔
      (c.1 - g.1) ^ 2 + (c.2 - g.2) ^ 2 < 225 := by
    intro c g
    simp only [levelComplete, dist2]
    rw [Real.sqrt_lt' (by norm_num : (0 : ℝ) < 15),
      show ((15 : ℝ)) ^ 2 = ((225 : ℚ) : ℝ) by norm_num]
    exact_mod_cast Iff.rfl
  refine ⟨key, ?_, ?_⟩
  · rw [key]
    norm_num
  · rw [key]
    norm_num

/-- C5 witness: the strict-comparison characterisation applied at the
concrete center offset (3,4), distance 5, which completes the level. -/
theorem level_completion_boundary_witness :
    levelComplete (3, 4) (0, 0) :=
  (level_completion_boundary.1 (3, 4) (0, 0)).mpr (by norm_num)

/-! ### Theorems for claim C6 -/

/-- C6 counterexample: the report pipeline applied to an empty sequence of
completed levels short-circuits and produces no output at all — in
particular it does not yield three zero aggregates. -/
theorem aggregates_empty_counterexample : processSession [] = none := rfl

/-- C6 (amended): with no completed levels, report generation returns
before computing any aggregate; for a nonempty sequence the three
aggregates are the arithmetic means of the per-level cov, collision count
and path efficiency (so `statistics.mean` is never applied to an empty
list and never raises). -/
theorem aggregates_of_session (ms : List LevelMetricsR) :
    (ms = [] → processSession ms = none) ∧
    (ms ≠ [] → processSession ms =
      some (ms.map levelData,
            meanR ((ms.map levelData).map LevelData.cov),
            meanR ((ms.map levelData).map (fun d => (d.collisions : ℝ))),
            meanR ((ms.map levelData).map LevelData.pathEff))) := by
  constructor
  · intro h
    rw [h]
    rfl
  · intro h
    cases ms with
    | nil => exact absurd rfl h
    | cons m rest => rfl

/-- C6 witness: the empty session short-circuits, a one-level session
produces the means over that single level. -/
theorem aggregates_of_session_witness :
    processSession [] = none ∧
    processSession [initLevelMetrics "Easy" (0, 0) (10, 0)] =
      some ([initLevelMetrics "Easy" (0, 0) (10, 0)].map levelData,
            meanR (([initLevelMetrics "Easy" (0, 0) (10, 0)].map levelData).map
              LevelData.cov),
            meanR (([initLevelMetrics "Easy" (0, 0) (10, 0)].map levelData).map
              (fun d => (d.collisions : ℝ))),
            meanR (([initLevelMetrics "Easy" (0, 0) (10, 0)].map levelData).map
              LevelData.pathEff)) :=
  ⟨(aggregates_of_session []).1 rfl,
   (aggregates_of_session [initLevelMetrics "Easy" (0, 0) (10, 0)]).2 (by simp)⟩

/-! ### Theorems for claim C7 -/

/-- C7 counterexample: with left and right held simultaneously (and no
vertical key) on a hardware-free frame, direction keys are held yet no
synthetic force sample is recorded and the current force is set to 0. -/
theorem keyboard_sampling_counterexample :
    (controlStep (.keyboard true true false false 1000) initFSR).2.2.readings = [] ∧
    (controlStep (.keyboard true true false false 1000) initFSR).2.1 = 0 := by
  have htv : resolveTarget (.keyboard true true false false 1000) = (0, 0) := by
    simp [resolveTarget, boolToQ]
  constructor <;> simp [controlStep, htv, initFSR]

/-- C7 (amended): on a frame without a hardware sample, a synthetic force
sample — the frame's uniform draw from the band
`[FSR_THRESHOLD + 200, MAX_FSR_VALUE - 500]`, hence above the
threshold — is recorded exactly when the held keys resolve to a nonzero
target velocity (an unopposed key on some axis); otherwise, including
opposing keys held simultaneously, no sample is recorded and the current
force is set to zero. -/
theorem keyboard_sampling (l r u d : Bool) (sim : ℚ) (m : FSRMetrics)
    (hsim : FSR_THRESHOLD + 200 ≤ sim ∧ sim ≤ MAX_FSR_VALUE - 500) :
    ((r ≠ l ∨ d ≠ u) →
      (controlStep (.keyboard l r u d sim) m).2.2.readings = m.readings ++ [sim] ∧
      (controlStep (.keyboard l r u d sim) m).2.1 = sim ∧
      FSR_THRESHOLD < sim) ∧
    ((r = l ∧ d = u) →
      (controlStep (.keyboard l r u d sim) m).2.2 = m ∧
      (controlStep (.keyboard l r u d sim) m).2.1 = 0) := by
  have hx : ∀ a b : Bool, a ≠ b → (boolToQ a - boolToQ b) * PLAYER_SPEED ≠ 0 := by
    intro a b hab
    cases a <;> cases b <;> simp_all [boolToQ, PLAYER_SPEED]
  constructor
  · intro hne
    have htv : resolveTarget (.keyboard l r u d sim) ≠ 0 := by
      rcases hne with h | h
      · exact fun hc => hx r l h (congrArg Prod.fst hc)
      · exact fun hc => hx d u h (congrArg Prod.snd hc)
    refine ⟨?_, ?_, ?_⟩
    · simp [controlStep, htv, recordSample]
    · simp [controlStep, htv]
    · have hb := hsim.1
      norm_num [FSR_THRESHOLD] at hb ⊢
      linarith
  · rintro ⟨hr, hd⟩
    have htv : resolveTarget (.keyboard l r u d sim) = 0 := by
      rw [resolveTarget, hr, hd]
      simp [Prod.ext_iff]
    constructor <;> simp [controlStep, htv]

/-- C7 witness: right held alone with draw 1000 records the sample 1000
and sets the current force to it, with 1000 above the threshold. -/
theorem keyboard_sampling_witness :
    (controlStep (.keyboard false true false false 1000) initFSR).2.2.readings =
      [1000] ∧
    (controlStep (.keyboard false true false false 1000) initFSR).2.1 = 1000 := by
  have h := (keyboard_sampling false true false false 1000 initFSR
    (by norm_num [FSR_THRESHOLD, MAX_FSR_VALUE])).1 (Or.inl (by simp))
  exact ⟨by rw [h.1]; rfl, h.2.1⟩

/-! ### Theorems for claim C8 -/

/-- C8: Level sequencing.  The Start Game action enters the playing state
at level index 0 — whose layout is "Easy" — with an empty completed-levels
list; every level completion advances the index by exactly one; and
completing the level at the final index of the sequence always moves the
state to report generation, never back to ask-to-continue. -/
theorem level_sequencing (s : Session) (m : LevelMetricsR) :
    (startGame s).gameState = GameState.playing ∧
    (startGame s).currentLevelIndex = 0 ∧
    (startGame s).completedLevels = [] ∧
    levelSequence.get? 0 = some "Easy" ∧
    (completeLevel s m).currentLevelIndex = s.currentLevelIndex + 1 ∧
    (s.currentLevelIndex = levelSequence.length - 1 →
      (completeLevel s m).gameState = GameState.generateReport) := by
  refine ⟨rfl, rfl, rfl, rfl, rfl, ?_⟩
  intro h
  simp [completeLevel, levelSequence, h]

/-- C8 witness: completing the level at index 2 (the last of the three
layouts) transitions to report generation. -/
theorem level_sequencing_witness :
    (completeLevel ⟨GameState.playing, 2, []⟩
      (initLevelMetrics "Hard" (0, 0) (10, 0))).gameState =
      GameState.generateReport :=
  (level_sequencing ⟨GameState.playing, 2, []⟩
    (initLevelMetrics "Hard" (0, 0) (10, 0))).2.2.2.2.2 rfl

/-! ### Theorems for claim C9 -/

/-- C9: Baseline comparison.  With an absent thresholds file, or a file
with zero entries, the comparison table is omitted (`none`, "no baseline
available") rather than zeros being reported; with the three persisted
sequences present and nonempty, the table holds per metric the session
value, the arithmetic mean of the persisted sequence, and their
difference, in source row order. -/
theorem baseline_comparison (avgCov avgColl avgEff : ℚ) (cs ls es : List ℚ)
    (hcs : cs ≠ []) (hls : ls ≠ []) (hes : es ≠ []) :
    comparisonSection none avgCov avgColl avgEff = none ∧
    comparisonSection (some []) avgCov avgColl avgEff = none ∧
    comparisonSection
        (some [("avg_cov", cs), ("avg_collisions", ls), ("avg_path_eff", es)])
        avgCov avgColl avgEff =
      some [("Collisions", avgColl, mean ls, avgColl - mean ls),
            ("Grip CoV (%)", avgCov, mean cs, avgCov - mean cs),
            ("Path Eff (%)", avgEff, mean es, avgEff - mean es)] := by
  refine ⟨rfl, rfl, ?_⟩
  simp [comparisonSection, loadNormalThresholds, dictLookup, hcs, hls, hes,
    List.find?]

/-- C9 witness: a store holding one prior session (single-entry value
lists) yields the three comparison rows with the persisted means. -/
theorem baseline_comparison_witness :
    comparisonSection
        (some [("avg_cov", [10]), ("avg_collisions", [20]),
               ("avg_path_eff", [30])]) 1 2 3 =
      some [("Collisions", 2, mean [20], 2 - mean [20]),
            ("Grip CoV (%)", 1, mean [10], 1 - mean [10]),
            ("Path Eff (%)", 3, mean [30], 3 - mean [30])] :=
  (baseline_comparison 1 2 3 [10] [20] [30] (by simp) (by simp) (by simp)).2.2

/-! ### Theorems for claim C10 -/

/-- C10 counterexample: a single hardware frame with force 5000 (above the
4095 sentinel, as the serial parser accepts any integer) and x tilt 5000
is sampled, yet `Min_FSR_Move` stays at the 4095 sentinel and is not the
minimum (5000) of the recorded samples. -/
theorem fsr_extrema_counterexample :
    (runControl [.hardware 5000 5000 0]).readings = [5000] ∧
    (runControl [.hardware 5000 5000 0]).minFSRMove = 4095 ∧
    (runControl [.hardware 5000 5000 0]).minFSRMove ≠
      qmin (runControl [.hardware 5000 5000 0]).readings := by
  have htv : resolveTarget (.hardware 5000 5000 0) ≠ 0 := by
    have h260 : resolveTarget (.hardware 5000 5000 0) = (260, 0) := by
      rw [resolveTarget]
      norm_num [FSR_THRESHOLD, TILT_SENSITIVITY, PLAYER_SPEED, clamp]
    rw [h260]
    norm_num [Prod.ext_iff]
  have hrun : runControl [.hardware 5000 5000 0] = recordSample initFSR 5000 := by
    simp [runControl, controlStep, htv]
  rw [hrun]
  refine ⟨by simp [recordSample, initFSR], ?_, ?_⟩
  · simp [recordSample, initFSR, MAX_FSR_VALUE]
    norm_num
  · simp [recordSample, initFSR, qmin, MAX_FSR_VALUE]
    norm_num

/-- C10 (amended): over any frame trace whose keyboard draws respect the
`random.uniform` band, every recorded force sample strictly exceeds the
grip threshold; hence when samples exist, `Max_FSR` is exactly their
maximum, `Min_FSR_Move` is the minimum of the 4095 sentinel and their
minimum, and both running extrema strictly exceed the threshold. -/
theorem fsr_samples_invariant (inputs : List FrameInput)
    (hv : validTrace inputs) :
    (∀ f ∈ (runControl inputs).readings, FSR_THRESHOLD < f) ∧
    ((runControl inputs).readings ≠ [] →
      (runControl inputs).maxFSR = qmax (runControl inputs).readings ∧
      (runControl inputs).minFSRMove =
        min MAX_FSR_VALUE (qmin (runControl inputs).readings) ∧
      FSR_THRESHOLD < (runControl inputs).maxFSR ∧
      FSR_THRESHOLD < (runControl inputs).minFSRMove) := by
  have main : ∀ (is : List FrameInput) (m : FSRMetrics), validTrace is →
      m.maxFSR = m.readings.foldl max 0 →
      m.minFSRMove = m.readings.foldl min MAX_FSR_VALUE →
      (∀ f ∈ m.readings, FSR_THRESHOLD < f) →
      (is.foldl (fun m i => (controlStep i m).2.2) m).maxFSR =
        (is.foldl (fun m i => (controlStep i m).2.2) m).readings.foldl max 0 ∧
      (is.foldl (fun m i => (controlStep i m).2.2) m).minFSRMove =
        (is.foldl (fun m i => (controlStep i m).2.2) m).readings.foldl min
          MAX_FSR_VALUE ∧
      (∀ f ∈ (is.foldl (fun m i => (controlStep i m).2.2) m).readings,
        FSR_THRESHOLD < f) := by
    intro is
    induction is with
    | nil => exact fun m _ h1 h2 h3 => ⟨h1, h2, h3⟩
    | cons i rest ih =>
        intro m hvm h1 h2 h3
        simp only [List.foldl_cons]
        have hstep := controlStep_invariant i m
          (hvm i (List.mem_cons_self i rest)) h1 h2 h3
        exact ih _ (fun j hj => hvm j (List.mem_cons_of_mem _ hj))
          hstep.1 hstep.2.1 hstep.2.2
  have H := main inputs initFSR hv rfl rfl (by simp [initFSR])
  have hR : runControl inputs =
      List.foldl (fun m i => (controlStep i m).2.2) initFSR inputs := rfl
  rw [← hR] at H
  have hmax := H.1
  have hmin := H.2.1
  have hall := H.2.2
  refine ⟨hall, fun hne => ?_⟩
  cases hL : (runControl inputs).readings with
  | nil => exact absurd hL hne
  | cons x xs =>
      rw [hL] at hmax hmin hall
      have hx : FSR_THRESHOLD < x := hall x (List.mem_cons_self x xs)
      have hxs : ∀ f ∈ xs, FSR_THRESHOLD < f :=
        fun f hf => hall f (List.mem_cons_of_mem _ hf)
      have hqmax : FSR_THRESHOLD < qmax (x :: xs) :=
        lt_foldl_max xs FSR_THRESHOLD x hx hxs
      have hqmin : FSR_THRESHOLD < qmin (x :: xs) :=
        lt_foldl_min xs FSR_THRESHOLD x hx hxs
      have hmax' : (runControl inputs).maxFSR = qmax (x :: xs) := by
        rw [hmax]
        simp only [List.foldl_cons]
        rw [foldl_max_shift xs 0 x]
        exact max_eq_right (le_of_lt (lt_trans (by norm_num [FSR_THRESHOLD]) hqmax))
      have hmin' : (runControl inputs).minFSRMove =
          min MAX_FSR_VALUE (qmin (x :: xs)) := by
        rw [hmin]
        simp only [List.foldl_cons]
        exact foldl_min_shift xs MAX_FSR_VALUE x
      refine ⟨hmax', hmin', ?_, ?_⟩
      · rw [hmax']; exact hqmax
      · rw [hmin']
        exact lt_min (by norm_num [FSR_THRESHOLD, MAX_FSR_VALUE]) hqmin

/-- C10 witness: a single keyboard frame with right held and draw 1000:
all samples exceed the threshold and `Max_FSR` is the sample maximum. -/
theorem fsr_samples_invariant_witness :
    (∀ f ∈ (runControl [.keyboard false true false false 1000]).readings,
      FSR_THRESHOLD < f) ∧
    (runControl [.keyboard false true false false 1000]).maxFSR =
      qmax (runControl [.keyboard false true false false 1000]).readings := by
  have hv : validTrace [.keyboard false true false false 1000] := by
    intro i hi
    simp only [List.mem_singleton] at hi
    rw [hi]
    exact ⟨by norm_num [FSR_THRESHOLD], by norm_num [MAX_FSR_VALUE]⟩
  have htv : resolveTarget (.keyboard false true false false 1000) ≠ 0 := by
    have h260 : resolveTarget (.keyboard false true false false 1000) = (260, 0) := by
      norm_num [resolveTarget, boolToQ, PLAYER_SPEED]
    rw [h260]
    norm_num [Prod.ext_iff]
  have hne : (runControl [.keyboard false true false false 1000]).readings ≠ [] := by
    simp [runControl, controlStep, htv, recordSample, initFSR]
  have H := fsr_samples_invariant [.keyboard false true false false 1000] hv
  exact ⟨H.1, (H.2 hne).1⟩

end NeuroGrip
